import Mathlib

/-!
Shallow embedding of the Soroban Mastermind-style game contract
(`contracts/my-game/src/lib.rs`) and proofs of the specification claims.

Modelling conventions:
* Machine integers (`u32`, `i128`) are `Nat` / `Int`.  Every arithmetic
  operation the contract performs is guarded so that the `u32` values stay
  far below `2^32` (attempt counters are bounded by 12, feedback counts by 4,
  blob lengths subtract only after a `<` check), so plain `Nat` arithmetic
  agrees with the Rust semantics on all inputs reachable without a panic.
* `Bytes` / `BytesN<k>` values are `List Nat` (one entry per byte); the
  length-`k` guarantee of `BytesN<k>` becomes an explicit hypothesis where it
  matters.
* `Address` values are opaque identifiers, modelled as `Nat`.
* The external verifier contract is a parameter `Option (List Nat → VerifierOutcome)`
  (`none` models an unset `VerifierAddress`); `keccak256` is a parameter
  `List Nat → List Nat`.
* The Rust functions return `Result<_, Error>`, modelled as `Except Error _`.
  The contract persists (`write_game`) only on the `Ok` path, so an `Except.error`
  result leaves the stored session untouched.
* The field named `partial` in the source is called `partialN` here, and the
  `exact` field `exactN`, to avoid clashes with Lean keywords and tactics.
-/

namespace MyGame

/-- Error codes of the game contract (`enum Error` in lib.rs). -/
inductive Error
  | GameNotFound
  | NotPlayer
  | GameAlreadyEnded
  | CommitmentAlreadySet
  | CommitmentNotSet
  | GuessPendingFeedback
  | NoPendingGuess
  | InvalidGuessId
  | InvalidFeedback
  | InvalidPublicInputs
  | InvalidProof
  | AttemptsExhausted
  | VerifierNotSet
  | InvalidProofBlob
  | InvalidGuess
  deriving DecidableEq, Repr

/-- Error codes of the external verifier contract (`enum VerifierError`). -/
inductive VerifierError
  | VkParseError
  | ProofParseError
  | VerificationFailed
  | VkNotSet
  deriving DecidableEq, Repr

/-- Outcome of `try_verify_proof_with_stored_vk`: `Ok(Ok(id))`, a
contract-level error `Ok(Err(e))`, or a failed invocation `Err(_)`. -/
inductive VerifierOutcome
  | ok (proofId : List Nat)
  | contractErr (e : VerifierError)
  | invokeErr
  deriving DecidableEq, Repr

/-- One accepted guess (`struct GuessRecord`); `guess` is a `BytesN<4>`. -/
structure GuessRecord where
  guess_id : Nat
  guess : List Nat
  deriving DecidableEq, Repr

/-- One resolved feedback (`struct FeedbackRecord`). -/
structure FeedbackRecord where
  guess_id : Nat
  exactN : Nat
  partialN : Nat
  proof_hash : List Nat
  deriving DecidableEq, Repr

/-- The per-session state (`struct Game`). -/
structure Game where
  player1 : Nat
  player2 : Nat
  player1_points : Int
  player2_points : Int
  commitment : Option (List Nat)
  max_attempts : Nat
  attempts_used : Nat
  next_guess_id : Nat
  pending_guess_id : Option Nat
  guesses : List GuessRecord
  feedbacks : List FeedbackRecord
  winner : Option Nat
  solved : Bool
  ended : Bool
  deriving DecidableEq, Repr

/-- `MAX_ATTEMPTS` constant of the contract. -/
def MAX_ATTEMPTS : Nat := 12

/-- The session record `start_game` writes on success (lib.rs lines 157-174). -/
def initial_game (player1 player2 : Nat) (player1_points player2_points : Int) : Game :=
  { player1 := player1
    player2 := player2
    player1_points := player1_points
    player2_points := player2_points
    commitment := none
    max_attempts := MAX_ATTEMPTS
    attempts_used := 0
    next_guess_id := 0
    pending_guess_id := none
    guesses := []
    feedbacks := []
    winner := none
    solved := false
    ended := false }

/-- Result of a public entry point that may also abort: `ok` models the Rust
`Ok` return, `err` a returned `Error`, `panicked` an uncontrolled abort
(`panic!` / `expect`). -/
inductive Outcome (α : Type)
  | ok (a : α)
  | err (e : Error)
  | panicked (msg : String)
  deriving DecidableEq, Repr

/-- `start_game` (lib.rs lines 118-176): aborts with a panic when the two
players coincide, otherwise records the fresh session.  (The Hub `start`
notification and the dual auth are external effects with no bearing on the
stored state.) -/
def start_game (session_id : Nat) (player1 player2 : Nat)
    (player1_points player2_points : Int) : Outcome Game :=
  if player1 = player2 then
    .panicked "Cannot play against yourself: Player 1 and Player 2 must be different addresses"
  else
    .ok (initial_game player1 player2 player1_points player2_points)

/-- `commit_code` (lib.rs lines 178-191), acting on a loaded session. -/
def commit_code (g : Game) (commitment : List Nat) : Except Error Game :=
  if g.ended then .error .GameAlreadyEnded
  else if g.commitment.isSome then .error .CommitmentAlreadySet
  else .ok { g with commitment := some commitment }

/-- `validate_guess_digits` (lib.rs lines 392-408): each byte in `1..=6`
and all four pairwise distinct.  `getD i 0` models `guess.get(i).unwrap_or(0)`. -/
def validate_guess_digits (guess : List Nat) : Except Error Unit :=
  let d0 := guess.getD 0 0
  let d1 := guess.getD 1 0
  let d2 := guess.getD 2 0
  let d3 := guess.getD 3 0
  if ¬ (1 ≤ d0 ∧ d0 ≤ 6) ∨ ¬ (1 ≤ d1 ∧ d1 ≤ 6) ∨ ¬ (1 ≤ d2 ∧ d2 ≤ 6) ∨ ¬ (1 ≤ d3 ∧ d3 ≤ 6) then
    .error .InvalidGuess
  else if d0 = d1 ∨ d0 = d2 ∨ d0 = d3 ∨ d1 = d2 ∨ d1 = d3 ∨ d2 = d3 then
    .error .InvalidGuess
  else
    .ok ()

/-- `submit_guess` (lib.rs lines 193-218), acting on a loaded session;
returns the updated session and the assigned guess id. -/
def submit_guess (g : Game) (guess : List Nat) : Except Error (Game × Nat) :=
  if g.ended then .error .GameAlreadyEnded
  else if g.commitment.isNone then .error .CommitmentNotSet
  else if g.max_attempts ≤ g.attempts_used then .error .AttemptsExhausted
  else if g.pending_guess_id.isSome then .error .GuessPendingFeedback
  else
    match validate_guess_digits guess with
    | .error e => .error e
    | .ok () =>
      let guess_id := g.next_guess_id
      .ok ({ g with
              next_guess_id := g.next_guess_id + 1
              pending_guess_id := some guess_id
              guesses := g.guesses ++ [⟨guess_id, guess⟩] }, guess_id)

/-- `guess_by_id` (lib.rs lines 380-390): first record with the given id. -/
def guess_by_id (g : Game) (guess_id : Nat) : Option (List Nat) :=
  (g.guesses.find? (fun r => r.guess_id == guess_id)).map (·.guess)

/-- Big-endian bytes of a `u32` (`value.to_be_bytes()` for `value < 2^32`). -/
def u32_be_bytes (value : Nat) : List Nat :=
  [value / 2 ^ 24 % 256, value / 2 ^ 16 % 256, value / 2 ^ 8 % 256, value % 256]

/-- `append_u32_field` (lib.rs lines 429-433): a 32-byte field, 28 zero bytes
then the big-endian `u32`. -/
def u32_field (value : Nat) : List Nat :=
  List.replicate 28 0 ++ u32_be_bytes value

/-- `append_bytes4_field` (lib.rs lines 435-442): a 32-byte field, 28 zero
bytes then the four guess bytes. -/
def bytes4_field (value : List Nat) : List Nat :=
  List.replicate 28 0 ++ [value.getD 0 0, value.getD 1 0, value.getD 2 0, value.getD 3 0]

/-- `build_public_inputs` (lib.rs lines 410-427): the six 32-byte fields in
their fixed order. -/
def build_public_inputs (session_id guess_id : Nat) (commitment guess : List Nat)
    (exactN partialN : Nat) : List Nat :=
  u32_field session_id ++ u32_field guess_id ++ commitment ++ bytes4_field guess
    ++ u32_field exactN ++ u32_field partialN

/-- The candidate proof-field-counts, in the order the contract tries them
(lib.rs line 451). -/
def PROOF_FIELD_CANDIDATES : List Nat := [456, 440, 234]

/-- The candidate loop of `extract_public_inputs_from_proof_blob`
(lib.rs lines 451-459). -/
def extract_go (proof_blob : List Nat) (rest_len : Nat) : List Nat → Except Error (List Nat)
  | [] => .error .InvalidProofBlob
  | proof_fields :: more =>
    let proof_len := proof_fields * 32
    if proof_len ≤ rest_len ∧ (rest_len - proof_len) % 32 = 0 then
      .ok ((proof_blob.drop 4).take (rest_len - proof_len))
    else
      extract_go proof_blob rest_len more

/-- `extract_public_inputs_from_proof_blob` (lib.rs lines 444-462). -/
def extract_public_inputs_from_proof_blob (proof_blob : List Nat) : Except Error (List Nat) :=
  let total_len := proof_blob.length
  if total_len < 4 then .error .InvalidProofBlob
  else extract_go proof_blob (total_len - 4) PROOF_FIELD_CANDIDATES

/-- The success tail of `submit_feedback_proof` (lib.rs lines 262-297):
record the feedback, clear the pending guess, bump the attempt counter, and
settle the terminal branches.  The second component is `some player1_won`
when the Hub `end_game` notification fired, `none` otherwise. -/
def apply_feedback (keccak : List Nat → List Nat) (g : Game)
    (guess_id exactN partialN : Nat) (proof_blob : List Nat) : Game × Option Bool :=
  let g1 : Game := { g with
    feedbacks := g.feedbacks ++ [⟨guess_id, exactN, partialN, keccak proof_blob⟩]
    pending_guess_id := none
    attempts_used := g.attempts_used + 1 }
  if exactN = 4 then
    ({ g1 with solved := true, ended := true, winner := some g1.player2 }, some false)
  else if g1.max_attempts ≤ g1.attempts_used then
    ({ g1 with solved := false, ended := true, winner := some g1.player1 }, some true)
  else
    (g1, none)

/-- `submit_feedback_proof` (lib.rs lines 220-298), acting on a loaded
session.  `keccak` models `env.crypto().keccak256`, `verifier` the optional
configured verifier contract. -/
def submit_feedback_proof (keccak : List Nat → List Nat)
    (verifier : Option (List Nat → VerifierOutcome))
    (session_id : Nat) (g : Game) (guess_id exactN partialN : Nat)
    (proof_blob : List Nat) : Except Error (Game × Option Bool) :=
  if g.ended then .error .GameAlreadyEnded
  else
    match g.commitment with
    | none => .error .CommitmentNotSet
    | some commitment =>
      match g.pending_guess_id with
      | none => .error .NoPendingGuess
      | some pending_guess_id =>
        if pending_guess_id ≠ guess_id then .error .InvalidGuessId
        else if 4 < exactN ∨ 4 < partialN ∨ 4 < exactN + partialN then .error .InvalidFeedback
        else
          match guess_by_id g guess_id with
          | none => .error .InvalidGuessId
          | some guess =>
            let expected_public_inputs :=
              build_public_inputs session_id guess_id commitment guess exactN partialN
            match extract_public_inputs_from_proof_blob proof_blob with
            | .error e => .error e
            | .ok public_inputs =>
              if expected_public_inputs ≠ public_inputs then .error .InvalidPublicInputs
              else
                match verifier with
                | none => .error .VerifierNotSet
                | some verify =>
                  match verify proof_blob with
                  | .ok _ => .ok (apply_feedback keccak g guess_id exactN partialN proof_blob)
                  | _ => .error .InvalidProof

/-! ### Helper lemmas -/

theorem u32_field_length (v : Nat) : (u32_field v).length = 32 := by
  simp [u32_field, u32_be_bytes]

theorem bytes4_field_length (g : List Nat) : (bytes4_field g).length = 32 := by
  simp [bytes4_field]

theorem build_public_inputs_length (sid gid e p : Nat) (c g : List Nat)
    (hc : c.length = 32) :
    (build_public_inputs sid gid c g e p).length = 192 := by
  simp [build_public_inputs, u32_field, bytes4_field, u32_be_bytes, hc]

/-- The candidate loop takes the first matching proof-field-count, phrased
via `List.find?`. -/
theorem extract_go_eq_find? (proof_blob : List Nat) (rest_len : Nat) (ps : List Nat) :
    extract_go proof_blob rest_len ps =
      match ps.find? (fun p => decide (p * 32 ≤ rest_len ∧ (rest_len - p * 32) % 32 = 0)) with
      | some p => .ok ((proof_blob.drop 4).take (rest_len - p * 32))
      | none => .error .InvalidProofBlob := by
  induction ps with
  | nil => rfl
  | cons p ps ih =>
    by_cases h : p * 32 ≤ rest_len ∧ (rest_len - p * 32) % 32 = 0
    · simp [extract_go, List.find?_cons, h]
    · simp [extract_go, List.find?_cons, h, ih]

/-- C2: for every byte sequence `blob`, the parser returns `InvalidProofBlob`
when `len(blob) < 4`; otherwise, with `rest = len(blob) - 4`, it tries the
candidates 456, 440, 234 in that order, and for the first candidate `p` with
`rest ≥ 32·p` and `(rest − 32·p) % 32 = 0` it returns the byte range
`[4, 4 + (rest − 32·p))` of the blob; it returns `InvalidProofBlob` when no
candidate matches, and first-match priority resolves any ambiguity. -/
theorem extract_first_matching_candidate (blob : List Nat) :
    extract_public_inputs_from_proof_blob blob =
      (if blob.length < 4 then Except.error Error.InvalidProofBlob
       else
         match ([456, 440, 234] : List Nat).find?
             (fun p => decide (p * 32 ≤ blob.length - 4 ∧ (blob.length - 4 - p * 32) % 32 = 0)) with
         | some p => Except.ok ((blob.drop 4).take (blob.length - 4 - p * 32))
         | none => Except.error Error.InvalidProofBlob) := by
  by_cases h : blob.length < 4
  · simp [extract_public_inputs_from_proof_blob, h]
  · simp only [extract_public_inputs_from_proof_blob, h, if_false]
    exact extract_go_eq_find? blob (blob.length - 4) PROOF_FIELD_CANDIDATES

/-- C5: `build_public_inputs` returns exactly 192 bytes: six 32-byte fields
in the fixed order (session_id, guess_id, commitment, guess, exactN,
partialN); each `u32` scalar is right-aligned big-endian in its field
(28 zero bytes, then the 4 big-endian bytes), the 4-digit guess occupies the
low 4 bytes of its field after 28 zero bytes, and the 32-byte commitment is
the third field verbatim. -/
theorem build_public_inputs_layout (session_id guess_id exactN partialN : Nat)
    (commitment guess : List Nat) (hc : commitment.length = 32) (hg : guess.length = 4) :
    (build_public_inputs session_id guess_id commitment guess exactN partialN).length = 192 ∧
    (build_public_inputs session_id guess_id commitment guess exactN partialN).take 32
      = List.replicate 28 0 ++ u32_be_bytes session_id ∧
    ((build_public_inputs session_id guess_id commitment guess exactN partialN).drop 32).take 32
      = List.replicate 28 0 ++ u32_be_bytes guess_id ∧
    ((build_public_inputs session_id guess_id commitment guess exactN partialN).drop 64).take 32
      = commitment ∧
    ((build_public_inputs session_id guess_id commitment guess exactN partialN).drop 96).take 32
      = List.replicate 28 0 ++ guess ∧
    ((build_public_inputs session_id guess_id commitment guess exactN partialN).drop 128).take 32
      = List.replicate 28 0 ++ u32_be_bytes exactN ∧
    ((build_public_inputs session_id guess_id commitment guess exactN partialN).drop 160).take 32
      = List.replicate 28 0 ++ u32_be_bytes partialN := by
  obtain ⟨b0, b1, b2, b3, rfl⟩ : ∃ b0 b1 b2 b3, guess = [b0, b1, b2, b3] := by
    match guess, hg with
    | [b0, b1, b2, b3], _ => exact ⟨b0, b1, b2, b3, rfl⟩
  refine ⟨build_public_inputs_length _ _ _ _ _ _ hc, ?_, ?_, ?_, ?_, ?_, ?_⟩ <;>
    simp [build_public_inputs, u32_field, bytes4_field, u32_be_bytes, hc,
      List.take_append_eq_append_take, List.drop_append_eq_append_drop]

/-- Witness for C5 at a concrete input. -/
theorem build_public_inputs_layout_witness :
    (build_public_inputs 7 3 (List.replicate 32 9) [1, 2, 3, 4] 2 1).length = 192 ∧
    (build_public_inputs 7 3 (List.replicate 32 9) [1, 2, 3, 4] 2 1).take 32
      = List.replicate 28 0 ++ u32_be_bytes 7 ∧
    ((build_public_inputs 7 3 (List.replicate 32 9) [1, 2, 3, 4] 2 1).drop 32).take 32
      = List.replicate 28 0 ++ u32_be_bytes 3 ∧
    ((build_public_inputs 7 3 (List.replicate 32 9) [1, 2, 3, 4] 2 1).drop 64).take 32
      = List.replicate 32 9 ∧
    ((build_public_inputs 7 3 (List.replicate 32 9) [1, 2, 3, 4] 2 1).drop 96).take 32
      = List.replicate 28 0 ++ [1, 2, 3, 4] ∧
    ((build_public_inputs 7 3 (List.replicate 32 9) [1, 2, 3, 4] 2 1).drop 128).take 32
      = List.replicate 28 0 ++ u32_be_bytes 2 ∧
    ((build_public_inputs 7 3 (List.replicate 32 9) [1, 2, 3, 4] 2 1).drop 160).take 32
      = List.replicate 28 0 ++ u32_be_bytes 1 :=
  build_public_inputs_layout 7 3 2 1 (List.replicate 32 9) [1, 2, 3, 4] (by simp) (by simp)

/-! ### Valid guesses -/

/-- A valid Mastermind code: four bytes, each in `[1,6]`, pairwise distinct. -/
def ValidCode (c : List Nat) : Prop :=
  c.length = 4 ∧ (∀ d ∈ c, 1 ≤ d ∧ d ≤ 6) ∧ c.Nodup

theorem exists_four_of_length_four {c : List Nat} (hc : c.length = 4) :
    ∃ b0 b1 b2 b3, c = [b0, b1, b2, b3] := by
  match c, hc with
  | [b0, b1, b2, b3], _ => exact ⟨b0, b1, b2, b3, rfl⟩

/-- `validate_guess_digits` accepts a 4-byte code exactly when it is valid. -/
theorem validate_guess_digits_ok_iff {c : List Nat} (hc : c.length = 4) :
    validate_guess_digits c = .ok () ↔ ValidCode c := by
  obtain ⟨b0, b1, b2, b3, rfl⟩ := exists_four_of_length_four hc
  have hvc : ValidCode [b0, b1, b2, b3] ↔
      (((1 ≤ b0 ∧ b0 ≤ 6) ∧ (1 ≤ b1 ∧ b1 ≤ 6) ∧ (1 ≤ b2 ∧ b2 ≤ 6) ∧ (1 ≤ b3 ∧ b3 ≤ 6)) ∧
        (¬ b0 = b1 ∧ ¬ b0 = b2 ∧ ¬ b0 = b3 ∧ ¬ b1 = b2 ∧ ¬ b1 = b3 ∧ ¬ b2 = b3)) := by
    constructor
    · rintro ⟨-, hall, hnd⟩
      simp only [List.nodup_cons, List.mem_cons, List.not_mem_nil, List.nodup_nil,
        or_false, not_or] at hnd
      have h0 := hall b0 (by simp)
      have h1 := hall b1 (by simp)
      have h2 := hall b2 (by simp)
      have h3 := hall b3 (by simp)
      tauto
    · rintro ⟨⟨h0, h1, h2, h3⟩, hne⟩
      refine ⟨rfl, ?_, ?_⟩
      · intro d hd
        simp only [List.mem_cons, List.not_mem_nil, or_false] at hd
        rcases hd with rfl | rfl | rfl | rfl <;> assumption
      · simp only [List.nodup_cons, List.mem_cons, List.not_mem_nil, List.nodup_nil,
          or_false, not_or]
        tauto
  rw [hvc]
  simp only [validate_guess_digits, List.getD_cons_zero, List.getD_cons_succ]
  split_ifs with h1 h2
  · exact iff_of_false (by simp) (by tauto)
  · exact iff_of_false (by simp) (by tauto)
  · refine iff_of_true rfl ?_
    push_neg at h1 h2
    tauto

/-! ### Inversion lemmas for the successful operations -/

theorem not_isSome_eq_none {α : Type} {o : Option α} (h : ¬ o.isSome = true) : o = none := by
  cases o with
  | none => rfl
  | some a => simp at h

theorem not_isNone_isSome {α : Type} {o : Option α} (h : ¬ o.isNone = true) :
    o.isSome = true := by
  cases o with
  | none => simp at h
  | some a => rfl

/-- A successful `commit_code` call: the session was live with no commitment,
and only the commitment field changes. -/
theorem commit_code_ok_inv {g g' : Game} {c : List Nat}
    (h : commit_code g c = .ok g') :
    g.ended = false ∧ g.commitment = none ∧ g' = { g with commitment := some c } := by
  unfold commit_code at h
  by_cases he : g.ended = true
  · rw [if_pos he] at h; cases h
  · rw [if_neg he] at h
    by_cases hcm : g.commitment.isSome = true
    · rw [if_pos hcm] at h; cases h
    · rw [if_neg hcm] at h
      refine ⟨by simpa using he, not_isSome_eq_none hcm, ?_⟩
      injection h with h
      exact h.symm

/-- A successful `submit_guess` call: every guard passed, the code is valid,
and the session gains exactly the new pending guess. -/
theorem submit_guess_ok_inv {g g' : Game} {code : List Nat} {id : Nat}
    (h : submit_guess g code = .ok (g', id)) :
    g.ended = false ∧ g.commitment.isSome = true ∧ g.attempts_used < g.max_attempts ∧
    g.pending_guess_id = none ∧ validate_guess_digits code = .ok () ∧
    id = g.next_guess_id ∧
    g' = { g with
            next_guess_id := g.next_guess_id + 1
            pending_guess_id := some g.next_guess_id
            guesses := g.guesses ++ [⟨g.next_guess_id, code⟩] } := by
  unfold submit_guess at h
  by_cases he : g.ended = true
  · rw [if_pos he] at h; cases h
  rw [if_neg he] at h
  by_cases hcm : g.commitment.isNone = true
  · rw [if_pos hcm] at h; cases h
  rw [if_neg hcm] at h
  by_cases hat : g.max_attempts ≤ g.attempts_used
  · rw [if_pos hat] at h; cases h
  rw [if_neg hat] at h
  by_cases hp : g.pending_guess_id.isSome = true
  · rw [if_pos hp] at h; cases h
  rw [if_neg hp] at h
  cases hv : validate_guess_digits code with
  | error e => rw [hv] at h; cases h
  | ok u =>
    cases u
    rw [hv] at h
    injection h with h
    injection h with hg hid
    exact ⟨by simpa using he, not_isNone_isSome hcm, by omega,
      not_isSome_eq_none hp, rfl, hid.symm, hg.symm⟩

/-- The parser fails only with `InvalidProofBlob`. -/
theorem extract_go_error_eq {proof_blob : List Nat} {rest_len : Nat} {ps : List Nat}
    {err : Error} (h : extract_go proof_blob rest_len ps = .error err) :
    err = .InvalidProofBlob := by
  induction ps with
  | nil => simpa [extract_go] using h.symm
  | cons p more ih =>
    by_cases hcond : p * 32 ≤ rest_len ∧ (rest_len - p * 32) % 32 = 0
    · simp [extract_go, hcond] at h
    · exact ih (by simpa [extract_go, hcond] using h)

theorem extract_error_eq {proof_blob : List Nat} {err : Error}
    (h : extract_public_inputs_from_proof_blob proof_blob = .error err) :
    err = .InvalidProofBlob := by
  unfold extract_public_inputs_from_proof_blob at h
  by_cases hl : proof_blob.length < 4
  · rw [if_pos hl] at h
    injection h with h
    exact h.symm
  · exact extract_go_error_eq (by simpa [hl] using h)

/-- A successful `submit_feedback_proof` call: every guard passed and the
result is the `apply_feedback` of the loaded session. -/
theorem submit_feedback_proof_ok_inv {keccak : List Nat → List Nat}
    {verifier : Option (List Nat → VerifierOutcome)} {sid : Nat} {g : Game}
    {gid e p : Nat} {blob : List Nat} {r : Game × Option Bool}
    (h : submit_feedback_proof keccak verifier sid g gid e p blob = .ok r) :
    g.ended = false ∧ g.pending_guess_id = some gid ∧
    e ≤ 4 ∧ p ≤ 4 ∧ e + p ≤ 4 ∧
    (∃ cm guess verify pid,
        g.commitment = some cm ∧ guess_by_id g gid = some guess ∧
        extract_public_inputs_from_proof_blob blob
          = .ok (build_public_inputs sid gid cm guess e p) ∧
        verifier = some verify ∧ verify blob = .ok pid) ∧
    r = apply_feedback keccak g gid e p blob := by
  unfold submit_feedback_proof at h
  by_cases he : g.ended = true
  · rw [if_pos he] at h; cases h
  rw [if_neg he] at h
  cases hcm : g.commitment with
  | none => simp [hcm] at h
  | some cm =>
  simp only [hcm] at h
  cases hp : g.pending_guess_id with
  | none => simp [hp] at h
  | some q =>
  simp only [hp] at h
  by_cases hq : q ≠ gid
  · simp [hq] at h
  push_neg at hq
  subst hq
  rw [if_neg (by simp)] at h
  by_cases hb : 4 < e ∨ 4 < p ∨ 4 < e + p
  · rw [if_pos hb] at h; cases h
  rw [if_neg hb] at h
  cases hgb : guess_by_id g q with
  | none => simp [hgb] at h
  | some guess =>
  simp only [hgb] at h
  cases hex : extract_public_inputs_from_proof_blob blob with
  | error err => simp [hex] at h
  | ok pis =>
  simp only [hex] at h
  by_cases hne : build_public_inputs sid q cm guess e p ≠ pis
  · rw [if_pos hne] at h; cases h
  rw [if_neg hne] at h
  push_neg at hne
  cases hv : verifier with
  | none => simp [hv] at h
  | some verify =>
  simp only [hv] at h
  cases hvb : verify blob with
  | ok pid =>
    simp only [hvb] at h
    injection h with h
    push_neg at hb
    exact ⟨by simpa using he, rfl, by omega, by omega, by omega,
      ⟨cm, guess, verify, pid, rfl, rfl, by rw [hne], rfl, hvb⟩, h.symm⟩
  | contractErr err => simp [hvb] at h
  | invokeErr => simp [hvb] at h

/-! ### Reachability and the session invariant -/

/-- One successful public mutation of a stored session: the contract only
persists (`write_game`) on the `Ok` path of `commit_code`, `submit_guess`
and `submit_feedback_proof`.  The byte-length side conditions record the
`BytesN<32>` / `BytesN<4>` types of the Rust entry points. -/
inductive Step (session_id : Nat) : Game → Game → Prop
  | commit {g g' : Game} {c : List Nat} (hc : c.length = 32)
      (h : commit_code g c = .ok g') : Step session_id g g'
  | guess {g g' : Game} {code : List Nat} {id : Nat} (hcode : code.length = 4)
      (h : submit_guess g code = .ok (g', id)) : Step session_id g g'
  | feedback {g g' : Game} {keccak : List Nat → List Nat}
      {verifier : Option (List Nat → VerifierOutcome)}
      {guess_id exactN partialN : Nat} {proof_blob : List Nat} {hub : Option Bool}
      (h : submit_feedback_proof keccak verifier session_id g guess_id exactN partialN proof_blob
            = .ok (g', hub)) : Step session_id g g'

/-- The session states reachable from `start_game` by the public operations. -/
inductive Reachable (session_id : Nat) : Game → Prop
  | start {p1 p2 : Nat} {a b : Int} (hne : p1 ≠ p2) :
      Reachable session_id (initial_game p1 p2 a b)
  | step {g g' : Game} (hr : Reachable session_id g) (hs : Step session_id g g') :
      Reachable session_id g'

/-- The inductive session invariant. -/
structure Inv (g : Game) : Prop where
  max_is : g.max_attempts = MAX_ATTEMPTS
  guesses_wf : ∀ r ∈ g.guesses, ValidCode r.guess
  feedback_le : ∀ f ∈ g.feedbacks, f.exactN ≤ 4 ∧ f.partialN ≤ 4 ∧ f.exactN + f.partialN ≤ 4
  attempts_le : g.attempts_used ≤ g.max_attempts
  ended_winner : g.ended = true → g.winner.isSome = true
  solved_winner : g.solved = true → g.winner = some g.player2
  full_ended : g.attempts_used = g.max_attempts → g.solved = false →
    g.ended = true ∧ g.winner = some g.player1
  next_len : g.next_guess_id = g.guesses.length
  attempts_len : g.attempts_used = g.feedbacks.length
  ids_range : g.guesses.map (fun r => r.guess_id) = List.range g.guesses.length
  pending_last : ∀ q, g.pending_guess_id = some q → q + 1 = g.next_guess_id
  pending_slot : ∀ q, g.pending_guess_id = some q → g.attempts_used < g.max_attempts

theorem inv_initial (p1 p2 : Nat) (a b : Int) : Inv (initial_game p1 p2 a b) := by
  refine ⟨rfl, ?_, ?_, ?_, ?_, ?_, ?_, rfl, rfl, rfl, ?_, ?_⟩ <;>
    simp [initial_game, MAX_ATTEMPTS]

theorem inv_step {sid : Nat} {g g' : Game} (hi : Inv g) (hs : Step sid g g') : Inv g' := by
  cases hs with
  | commit hc h =>
    obtain ⟨he, hcm, rfl⟩ := commit_code_ok_inv h
    exact { max_is := hi.max_is, guesses_wf := hi.guesses_wf, feedback_le := hi.feedback_le,
            attempts_le := hi.attempts_le, ended_winner := hi.ended_winner,
            solved_winner := hi.solved_winner, full_ended := hi.full_ended,
            next_len := hi.next_len, attempts_len := hi.attempts_len,
            ids_range := hi.ids_range, pending_last := hi.pending_last,
            pending_slot := hi.pending_slot }
  | guess hcode h =>
    obtain ⟨he, hcm, hat, hpend, hval, hid, rfl⟩ := submit_guess_ok_inv h
    refine ⟨hi.max_is, ?_, hi.feedback_le, hi.attempts_le, hi.ended_winner,
      hi.solved_winner, hi.full_ended, ?_, hi.attempts_len, ?_, ?_, ?_⟩
    · intro r hr
      rcases List.mem_append.mp hr with hr | hr
      · exact hi.guesses_wf r hr
      · simp only [List.mem_singleton] at hr
        subst hr
        exact (validate_guess_digits_ok_iff hcode).mp hval
    · simp [hi.next_len]
    · simp only [List.map_append, List.length_append, List.map_cons, List.map_nil,
        List.length_cons, List.length_nil, hi.ids_range, hi.next_len]
      rw [List.range_succ]
    · intro q hq
      simp only [Option.some.injEq] at hq
      subst hq
      rfl
    · intro q hq
      exact hat
  | feedback h =>
    obtain ⟨he, hpend, he4, hp4, hep4, -, hr⟩ := submit_feedback_proof_ok_inv h
    have hat : g.attempts_used < g.max_attempts := hi.pending_slot _ hpend
    rename_i keccak verifier gid exactN partialN blob hub
    have hfb : ∀ f ∈ g.feedbacks ++ [⟨gid, exactN, partialN, keccak blob⟩],
        f.exactN ≤ 4 ∧ f.partialN ≤ 4 ∧ f.exactN + f.partialN ≤ 4 := by
      intro f hf
      rcases List.mem_append.mp hf with hf | hf
      · exact hi.feedback_le f hf
      · simp only [List.mem_singleton] at hf
        subst hf
        exact ⟨he4, hp4, hep4⟩
    unfold apply_feedback at hr
    by_cases hx : exactN = 4
    · rw [if_pos hx] at hr
      injection hr with hr1 hr2
      subst hr1
      refine ⟨hi.max_is, hi.guesses_wf, hfb,
        show g.attempts_used + 1 ≤ g.max_attempts by omega, by simp, by simp, ?_,
        hi.next_len, by simp [hi.attempts_len], hi.ids_range, by simp, by simp⟩
      intro _ hsolved
      simp at hsolved
    · rw [if_neg hx] at hr
      by_cases hful : g.max_attempts ≤ g.attempts_used + 1
      · rw [if_pos hful] at hr
        injection hr with hr1 hr2
        subst hr1
        exact ⟨hi.max_is, hi.guesses_wf, hfb,
          show g.attempts_used + 1 ≤ g.max_attempts by omega, by simp, by simp,
          fun _ _ => ⟨rfl, rfl⟩,
          hi.next_len, by simp [hi.attempts_len], hi.ids_range, by simp, by simp⟩
      · rw [if_neg hful] at hr
        injection hr with hr1 hr2
        subst hr1
        refine ⟨hi.max_is, hi.guesses_wf, hfb,
          show g.attempts_used + 1 ≤ g.max_attempts by omega, ?_, ?_, ?_,
          hi.next_len, by simp [hi.attempts_len], hi.ids_range, by simp, by simp⟩
        · intro hend
          have hend2 : g.ended = true := hend
          rw [he] at hend2
          cases hend2
        · intro hsolved
          have hsolved2 : g.solved = true := hsolved
          exact hi.solved_winner hsolved2
        · intro hfull _
          have hfull2 : g.attempts_used + 1 = g.max_attempts := hfull
          omega

theorem reachable_inv {sid : Nat} {g : Game} (hr : Reachable sid g) : Inv g := by
  induction hr with
  | start hne => exact inv_initial _ _ _ _
  | step hr hs ih => exact inv_step ih hs

/-- No successful operation applies to an ended session: `ended` is a
one-way latch. -/
theorem step_not_ended {sid : Nat} {g g' : Game} (hs : Step sid g g') :
    g.ended = false := by
  cases hs with
  | commit hc h => exact (commit_code_ok_inv h).1
  | guess hcode h => exact (submit_guess_ok_inv h).1
  | feedback h => exact (submit_feedback_proof_ok_inv h).1

/-- A pending guess id always has a matching record, by the invariant. -/
theorem inv_pending_guess_by_id {g : Game} (hi : Inv g) {q : Nat}
    (hq : g.pending_guess_id = some q) : ∃ code, guess_by_id g q = some code := by
  have hlast := hi.pending_last q hq
  have hlt : q < g.guesses.length := by
    have := hi.next_len
    omega
  have hmem : q ∈ g.guesses.map (fun r => r.guess_id) := by
    rw [hi.ids_range]
    exact List.mem_range.mpr hlt
  obtain ⟨r, hr, hrq⟩ := List.mem_map.mp hmem
  have hfind : (g.guesses.find? (fun r => r.guess_id == q)).isSome = true := by
    rw [List.find?_isSome]
    exact ⟨r, hr, by simp [hrq]⟩
  obtain ⟨r', hr'⟩ := Option.isSome_iff_exists.mp hfind
  exact ⟨r'.guess, by simp [guess_by_id, hr']⟩

/-- With the pending id supplied and its record present, `submit_feedback_proof`
never reports `InvalidGuessId`: the secondary lookup branch is dead. -/
theorem feedback_no_missing_guess {keccak : List Nat → List Nat}
    {verifier : Option (List Nat → VerifierOutcome)} {sid : Nat} {g : Game}
    {gid e p : Nat} {blob : List Nat}
    (hpend : g.pending_guess_id = some gid)
    (hsome : (guess_by_id g gid).isSome = true) :
    submit_feedback_proof keccak verifier sid g gid e p blob ≠ .error .InvalidGuessId := by
  intro h
  unfold submit_feedback_proof at h
  by_cases he : g.ended = true
  · rw [if_pos he] at h; simp at h
  rw [if_neg he] at h
  cases hcm : g.commitment with
  | none => simp [hcm] at h
  | some cm =>
  simp only [hcm] at h
  simp only [hpend] at h
  rw [if_neg (by simp)] at h
  by_cases hb : 4 < e ∨ 4 < p ∨ 4 < e + p
  · rw [if_pos hb] at h; simp at h
  rw [if_neg hb] at h
  cases hgb : guess_by_id g gid with
  | none => rw [hgb] at hsome; simp at hsome
  | some guess =>
  simp only [hgb] at h
  cases hex : extract_public_inputs_from_proof_blob blob with
  | error err =>
    simp only [hex] at h
    injection h with h
    rw [extract_error_eq hex] at h
    simp at h
  | ok pis =>
  simp only [hex] at h
  by_cases hne2 : build_public_inputs sid gid cm guess e p ≠ pis
  · rw [if_pos hne2] at h; simp at h
  rw [if_neg hne2] at h
  cases hv : verifier with
  | none => simp [hv] at h
  | some verify =>
  simp only [hv] at h
  cases hvb : verify blob with
  | ok pid => simp [hvb] at h
  | contractErr err2 => simp [hvb] at h
  | invokeErr => simp [hvb] at h

/-- C7: every reachable session state satisfies the spec invariants: all
recorded guesses are valid codes (4 digits in [1,6], pairwise distinct),
every feedback entry has exactN + partialN ≤ 4, attempts_used ≤ max_attempts
(which is 12), ended implies a winner, solved implies the codebreaker
(player2) won, a full attempt counter without solving implies the game ended
with the codemaker (player1) as winner, and `ended` is a one-way latch. -/
theorem reachable_session_invariants {sid : Nat} {g : Game} (hr : Reachable sid g) :
    (∀ r ∈ g.guesses, ValidCode r.guess) ∧
    (∀ f ∈ g.feedbacks, f.exactN + f.partialN ≤ 4) ∧
    g.attempts_used ≤ g.max_attempts ∧ g.max_attempts = 12 ∧
    (g.ended = true → g.winner.isSome = true) ∧
    (g.solved = true → g.winner = some g.player2) ∧
    (g.attempts_used = g.max_attempts → g.solved = false →
      g.ended = true ∧ g.winner = some g.player1) ∧
    (∀ g', Step sid g g' → g.ended = true → g'.ended = true) := by
  have hi := reachable_inv hr
  refine ⟨hi.guesses_wf, fun f hf => (hi.feedback_le f hf).2.2, hi.attempts_le, hi.max_is,
    hi.ended_winner, hi.solved_winner, hi.full_ended, ?_⟩
  intro g' hs hend
  rw [step_not_ended hs] at hend
  cases hend

/-- C10: in every reachable session state the counters track the logs, and a
pending guess id is the most recently assigned one with its record present,
so the pending lookup in `submit_feedback_proof` cannot fail and the
secondary `InvalidGuessId` branch is unreachable. -/
theorem reachable_counters_pending {sid : Nat} {g : Game} (hr : Reachable sid g) :
    g.next_guess_id = g.guesses.length ∧
    g.attempts_used = g.feedbacks.length ∧
    (∀ q, g.pending_guess_id = some q →
      q + 1 = g.next_guess_id ∧ (∃ code, guess_by_id g q = some code)) ∧
    (∀ keccak verifier gid e p blob, g.pending_guess_id = some gid →
      submit_feedback_proof keccak verifier sid g gid e p blob ≠ .error .InvalidGuessId) := by
  have hi := reachable_inv hr
  refine ⟨hi.next_len, hi.attempts_len,
    fun q hq => ⟨hi.pending_last q hq, inv_pending_guess_by_id hi hq⟩, ?_⟩
  intro keccak verifier gid e p blob hpend
  obtain ⟨code, hcode⟩ := inv_pending_guess_by_id hi hpend
  exact feedback_no_missing_guess hpend (by simp [hcode])

/-! ### A concrete reachable state for the witnesses -/

def demo_commitment : List Nat := List.replicate 32 0

def demo_g1 : Game := { initial_game 1 2 100 100 with commitment := some demo_commitment }

def demo_g2 : Game := { demo_g1 with
  next_guess_id := 1
  pending_guess_id := some 0
  guesses := [⟨0, [1, 2, 3, 4]⟩] }

theorem demo_commit_ok : commit_code (initial_game 1 2 100 100) demo_commitment
    = .ok demo_g1 := by
  rfl

theorem demo_guess_ok : submit_guess demo_g1 [1, 2, 3, 4] = .ok (demo_g2, 0) := by
  rfl

theorem demo_reachable : Reachable 5 demo_g2 :=
  Reachable.step
    (Reachable.step (Reachable.start (by decide))
      (Step.commit (by simp [demo_commitment]) demo_commit_ok))
    (Step.guess (by decide) demo_guess_ok)

/-- Witness for C7 at a concrete reachable state. -/
theorem reachable_session_invariants_witness :
    (∀ r ∈ demo_g2.guesses, ValidCode r.guess) ∧
    (∀ f ∈ demo_g2.feedbacks, f.exactN + f.partialN ≤ 4) ∧
    demo_g2.attempts_used ≤ demo_g2.max_attempts ∧ demo_g2.max_attempts = 12 ∧
    (demo_g2.ended = true → demo_g2.winner.isSome = true) ∧
    (demo_g2.solved = true → demo_g2.winner = some demo_g2.player2) ∧
    (demo_g2.attempts_used = demo_g2.max_attempts → demo_g2.solved = false →
      demo_g2.ended = true ∧ demo_g2.winner = some demo_g2.player1) ∧
    (∀ g', Step 5 demo_g2 g' → demo_g2.ended = true → g'.ended = true) :=
  reachable_session_invariants demo_reachable

/-- Witness for C10 at a concrete reachable state. -/
theorem reachable_counters_pending_witness :
    demo_g2.next_guess_id = demo_g2.guesses.length ∧
    demo_g2.attempts_used = demo_g2.feedbacks.length ∧
    (∀ q, demo_g2.pending_guess_id = some q →
      q + 1 = demo_g2.next_guess_id ∧ (∃ code, guess_by_id demo_g2 q = some code)) ∧
    (∀ keccak verifier gid e p blob, demo_g2.pending_guess_id = some gid →
      submit_feedback_proof keccak verifier 5 demo_g2 gid e p blob
        ≠ .error .InvalidGuessId) :=
  reachable_counters_pending demo_reachable

/-! ### Round-trip of builder and parser -/

/-- A well-formed artifact (4-byte header, 192-byte public inputs, a
supported number of 32-byte proof fields) parses back to its public-input
segment. -/
theorem extract_append_of_proof_len {header v pr : List Nat} {pf : Nat}
    (hh : header.length = 4) (hv : v.length = 192)
    (hpf : pf = 456 ∨ pf = 440 ∨ pf = 234) (hpr : pr.length = pf * 32) :
    extract_public_inputs_from_proof_blob (header ++ (v ++ pr)) = .ok v := by
  have hdrop : (header ++ (v ++ pr)).drop 4 = v ++ pr := List.drop_left' hh
  have htake : (v ++ pr).take 192 = v := List.take_left' hv
  have hlen : (header ++ (v ++ pr)).length = 196 + pf * 32 := by
    simp [hh, hv, hpr]
    omega
  unfold extract_public_inputs_from_proof_blob
  rw [hlen, if_neg (by omega)]
  rcases hpf with rfl | rfl | rfl <;>
    simp only [PROOF_FIELD_CANDIDATES, extract_go, hdrop] <;>
    norm_num <;>
    exact htake

/-- C4: encoding a tuple with the builder and wrapping it as a 4-byte
big-endian total-field-count header, the 192 public-input bytes, and `pf`
32-byte proof fields for any supported `pf ∈ {456, 440, 234}`, then parsing
the artifact, returns the public-input vector byte-identically. -/
theorem build_extract_roundtrip (session_id guess_id exactN partialN : Nat)
    (commitment guess proof_bytes : List Nat) (pf : Nat)
    (hc : commitment.length = 32) (hg : guess.length = 4)
    (hpf : pf = 456 ∨ pf = 440 ∨ pf = 234)
    (hpr : proof_bytes.length = pf * 32) :
    extract_public_inputs_from_proof_blob
        (u32_be_bytes (pf + 6) ++
          (build_public_inputs session_id guess_id commitment guess exactN partialN
            ++ proof_bytes))
      = .ok (build_public_inputs session_id guess_id commitment guess exactN partialN) :=
  extract_append_of_proof_len (by simp [u32_be_bytes])
    (build_public_inputs_length _ _ _ _ _ _ hc) hpf hpr

/-- Witness for C4 at a concrete input (`pf = 234`). -/
theorem build_extract_roundtrip_witness :
    extract_public_inputs_from_proof_blob
        (u32_be_bytes 240 ++
          (build_public_inputs 5 0 demo_commitment [1, 2, 3, 4] 1 1
            ++ List.replicate (234 * 32) 1))
      = .ok (build_public_inputs 5 0 demo_commitment [1, 2, 3, 4] 1 1) :=
  build_extract_roundtrip 5 0 1 1 demo_commitment [1, 2, 3, 4]
    (List.replicate (234 * 32) 1) 234 (by simp [demo_commitment]) (by decide)
    (by norm_num) (List.length_replicate _ _)

/-- C3: on every successful `submit_feedback_proof` call (on a reachable
session) the operation appends one feedback record (guess id, exactN,
partialN, artifact hash), clears the pending guess, and increments
attempts_used; if exactN = 4 it marks solved/ended with the codebreaker
(player2) as winner and notifies the Hub codebreaker-favorably
(`player1_won = false`); else if the incremented counter reaches
max_attempts it ends the game unsolved with the codemaker (player1) as
winner and notifies the Hub codemaker-favorably; otherwise no notification
fires and every other field is unchanged. -/
theorem submit_feedback_success_spec {keccak : List Nat → List Nat}
    {verifier : Option (List Nat → VerifierOutcome)} {sid : Nat} {g : Game}
    {gid e p : Nat} {blob : List Nat} {g' : Game} {hub : Option Bool}
    (hr : Reachable sid g)
    (h : submit_feedback_proof keccak verifier sid g gid e p blob = .ok (g', hub)) :
    g'.feedbacks = g.feedbacks ++ [⟨gid, e, p, keccak blob⟩] ∧
    g'.pending_guess_id = none ∧
    g'.attempts_used = g.attempts_used + 1 ∧
    (e = 4 →
      g'.solved = true ∧ g'.ended = true ∧ g'.winner = some g.player2 ∧ hub = some false) ∧
    (e ≠ 4 → g.attempts_used + 1 = g.max_attempts →
      g'.ended = true ∧ g'.solved = false ∧ g'.winner = some g.player1 ∧ hub = some true) ∧
    (e ≠ 4 → g.attempts_used + 1 ≠ g.max_attempts →
      hub = none ∧ g'.ended = false ∧ g'.solved = g.solved ∧ g'.winner = g.winner ∧
      g'.guesses = g.guesses ∧ g'.commitment = g.commitment ∧
      g'.next_guess_id = g.next_guess_id ∧ g'.max_attempts = g.max_attempts ∧
      g'.player1 = g.player1 ∧ g'.player2 = g.player2 ∧
      g'.player1_points = g.player1_points ∧ g'.player2_points = g.player2_points) := by
  obtain ⟨he, hpend, he4, hp4, hep4, -, hr2⟩ := submit_feedback_proof_ok_inv h
  have hat : g.attempts_used < g.max_attempts := (reachable_inv hr).pending_slot _ hpend
  unfold apply_feedback at hr2
  by_cases hx : e = 4
  · rw [if_pos hx] at hr2
    injection hr2 with h1 h2
    subst h1
    subst h2
    exact ⟨rfl, rfl, rfl, fun _ => ⟨rfl, rfl, rfl, rfl⟩,
      fun hne _ => absurd hx hne, fun hne _ => absurd hx hne⟩
  · rw [if_neg hx] at hr2
    by_cases hful : g.max_attempts ≤ g.attempts_used + 1
    · rw [if_pos hful] at hr2
      injection hr2 with h1 h2
      subst h1
      subst h2
      exact ⟨rfl, rfl, rfl, fun h4 => absurd h4 hx,
        fun _ _ => ⟨rfl, rfl, rfl, rfl⟩,
        fun _ hne => absurd (by omega) hne⟩
    · rw [if_neg hful] at hr2
      injection hr2 with h1 h2
      subst h1
      subst h2
      exact ⟨rfl, rfl, rfl, fun h4 => absurd h4 hx,
        fun _ heq => absurd (le_of_eq heq.symm) hful,
        fun _ _ => ⟨rfl, he, rfl, rfl, rfl, rfl, rfl, rfl, rfl, rfl, rfl, rfl⟩⟩

/-! ### A concrete successful feedback call -/

def demo_public_inputs : List Nat := build_public_inputs 5 0 demo_commitment [1, 2, 3, 4] 1 1

def demo_blob : List Nat :=
  u32_be_bytes 240 ++ (demo_public_inputs ++ List.replicate (234 * 32) 1)

def demo_keccak : List Nat → List Nat := fun _ => List.replicate 32 0

def demo_verifier : Option (List Nat → VerifierOutcome) := some (fun _ => .ok [])

def demo_g3 : Game := { demo_g2 with
  feedbacks := [⟨0, 1, 1, List.replicate 32 0⟩]
  pending_guess_id := none
  attempts_used := 1 }

/-- Forward direction: when every guard passes, `submit_feedback_proof`
returns the `apply_feedback` result. -/
theorem submit_feedback_proof_ok_intro {keccak : List Nat → List Nat}
    {verifier : Option (List Nat → VerifierOutcome)} {sid : Nat} {g : Game}
    {gid e p : Nat} {blob : List Nat} {cm guess : List Nat}
    {verify : List Nat → VerifierOutcome}
    (he : g.ended = false) (hcm : g.commitment = some cm)
    (hpend : g.pending_guess_id = some gid)
    (hb : e ≤ 4 ∧ p ≤ 4 ∧ e + p ≤ 4)
    (hgb : guess_by_id g gid = some guess)
    (hex : extract_public_inputs_from_proof_blob blob
      = .ok (build_public_inputs sid gid cm guess e p))
    (hv : verifier = some verify) (hvb : ∃ pid, verify blob = .ok pid) :
    submit_feedback_proof keccak verifier sid g gid e p blob
      = .ok (apply_feedback keccak g gid e p blob) := by
  obtain ⟨pid, hpid⟩ := hvb
  unfold submit_feedback_proof
  rw [if_neg (by simp [he])]
  simp only [hcm, hpend]
  rw [if_neg (by simp)]
  rw [if_neg (by omega)]
  simp only [hgb, hex]
  rw [if_neg (by simp)]
  simp only [hv, hpid]

theorem demo_feedback_ok :
    submit_feedback_proof demo_keccak demo_verifier 5 demo_g2 0 1 1 demo_blob
      = .ok (demo_g3, none) := by
  have hex : extract_public_inputs_from_proof_blob demo_blob = .ok demo_public_inputs :=
    extract_append_of_proof_len (by simp [u32_be_bytes])
      (build_public_inputs_length _ _ _ _ _ _ (by simp [demo_commitment]))
      (by norm_num) (List.length_replicate _ _)
  rw [@submit_feedback_proof_ok_intro demo_keccak demo_verifier 5 demo_g2 0 1 1
    demo_blob demo_commitment [1, 2, 3, 4] (fun _ => .ok [])
    (show demo_g2.ended = false from rfl)
    (show demo_g2.commitment = some demo_commitment from rfl)
    (show demo_g2.pending_guess_id = some 0 from rfl)
    (by norm_num)
    (show guess_by_id demo_g2 0 = some [1, 2, 3, 4] from rfl)
    (show extract_public_inputs_from_proof_blob demo_blob
      = .ok (build_public_inputs 5 0 demo_commitment [1, 2, 3, 4] 1 1) from hex)
    (show demo_verifier = some (fun _ => .ok []) from rfl) ⟨[], rfl⟩]
  rfl

/-- Witness for C3 at a concrete successful call. -/
theorem submit_feedback_success_spec_witness :
    demo_g3.feedbacks = demo_g2.feedbacks ++ [⟨0, 1, 1, demo_keccak demo_blob⟩] ∧
    demo_g3.pending_guess_id = none ∧
    demo_g3.attempts_used = demo_g2.attempts_used + 1 ∧
    ((1 : Nat) = 4 →
      demo_g3.solved = true ∧ demo_g3.ended = true ∧
      demo_g3.winner = some demo_g2.player2 ∧ (none : Option Bool) = some false) ∧
    ((1 : Nat) ≠ 4 → demo_g2.attempts_used + 1 = demo_g2.max_attempts →
      demo_g3.ended = true ∧ demo_g3.solved = false ∧
      demo_g3.winner = some demo_g2.player1 ∧ (none : Option Bool) = some true) ∧
    ((1 : Nat) ≠ 4 → demo_g2.attempts_used + 1 ≠ demo_g2.max_attempts →
      (none : Option Bool) = none ∧ demo_g3.ended = false ∧
      demo_g3.solved = demo_g2.solved ∧ demo_g3.winner = demo_g2.winner ∧
      demo_g3.guesses = demo_g2.guesses ∧ demo_g3.commitment = demo_g2.commitment ∧
      demo_g3.next_guess_id = demo_g2.next_guess_id ∧
      demo_g3.max_attempts = demo_g2.max_attempts ∧
      demo_g3.player1 = demo_g2.player1 ∧ demo_g3.player2 = demo_g2.player2 ∧
      demo_g3.player1_points = demo_g2.player1_points ∧
      demo_g3.player2_points = demo_g2.player2_points) :=
  submit_feedback_success_spec demo_reachable demo_feedback_ok

/-! ### Error order of submit_feedback_proof -/

/-- C1: on a reachable session, `submit_feedback_proof` reports exactly the
error of the first failing check, in the order GameAlreadyEnded,
CommitmentNotSet, NoPendingGuess, InvalidGuessId (mismatched pending id),
InvalidFeedback, InvalidProofBlob, InvalidPublicInputs, VerifierNotSet,
InvalidProof.  The verifier quantifier on the pre-verifier conjuncts shows
the verifier is not consulted before the public inputs match, every
non-success verifier outcome maps to InvalidProof, and the tenth conjunct
shows the secondary lookup cannot introduce InvalidGuessId out of order.
Every error path returns before `write_game`, so the stored session is
unchanged on failure. -/
theorem submit_feedback_error_order {sid : Nat} {g : Game} (hr : Reachable sid g)
    (keccak : List Nat → List Nat) (gid e p : Nat) (blob : List Nat) :
    (∀ verifier, g.ended = true →
      submit_feedback_proof keccak verifier sid g gid e p blob
        = .error .GameAlreadyEnded) ∧
    (∀ verifier, g.ended = false → g.commitment = none →
      submit_feedback_proof keccak verifier sid g gid e p blob
        = .error .CommitmentNotSet) ∧
    (∀ verifier, g.ended = false → g.commitment ≠ none → g.pending_guess_id = none →
      submit_feedback_proof keccak verifier sid g gid e p blob
        = .error .NoPendingGuess) ∧
    (∀ verifier q, g.ended = false → g.commitment ≠ none → g.pending_guess_id = some q →
      q ≠ gid →
      submit_feedback_proof keccak verifier sid g gid e p blob
        = .error .InvalidGuessId) ∧
    (∀ verifier, g.ended = false → g.commitment ≠ none → g.pending_guess_id = some gid →
      (4 < e ∨ 4 < p ∨ 4 < e + p) →
      submit_feedback_proof keccak verifier sid g gid e p blob
        = .error .InvalidFeedback) ∧
    (∀ verifier err, g.ended = false → g.commitment ≠ none →
      g.pending_guess_id = some gid → ¬(4 < e ∨ 4 < p ∨ 4 < e + p) →
      extract_public_inputs_from_proof_blob blob = .error err →
      submit_feedback_proof keccak verifier sid g gid e p blob
        = .error .InvalidProofBlob) ∧
    (∀ verifier cm guess pis, g.ended = false → g.commitment = some cm →
      g.pending_guess_id = some gid → ¬(4 < e ∨ 4 < p ∨ 4 < e + p) →
      guess_by_id g gid = some guess →
      extract_public_inputs_from_proof_blob blob = .ok pis →
      build_public_inputs sid gid cm guess e p ≠ pis →
      submit_feedback_proof keccak verifier sid g gid e p blob
        = .error .InvalidPublicInputs) ∧
    (∀ cm guess, g.ended = false → g.commitment = some cm →
      g.pending_guess_id = some gid → ¬(4 < e ∨ 4 < p ∨ 4 < e + p) →
      guess_by_id g gid = some guess →
      extract_public_inputs_from_proof_blob blob
        = .ok (build_public_inputs sid gid cm guess e p) →
      submit_feedback_proof keccak none sid g gid e p blob
        = .error .VerifierNotSet) ∧
    (∀ verify cm guess, g.ended = false → g.commitment = some cm →
      g.pending_guess_id = some gid → ¬(4 < e ∨ 4 < p ∨ 4 < e + p) →
      guess_by_id g gid = some guess →
      extract_public_inputs_from_proof_blob blob
        = .ok (build_public_inputs sid gid cm guess e p) →
      (∀ pid, verify blob ≠ .ok pid) →
      submit_feedback_proof keccak (some verify) sid g gid e p blob
        = .error .InvalidProof) ∧
    (g.pending_guess_id = some gid → guess_by_id g gid ≠ none) := by
  have hi := reachable_inv hr
  refine ⟨?_, ?_, ?_, ?_, ?_, ?_, ?_, ?_, ?_, ?_⟩
  · intro verifier hend
    unfold submit_feedback_proof
    rw [if_pos hend]
  · intro verifier hend hcm
    unfold submit_feedback_proof
    rw [if_neg (by simp [hend])]
    simp only [hcm]
  · intro verifier hend hcm hpend
    obtain ⟨cm, hcm2⟩ := Option.ne_none_iff_exists'.mp hcm
    unfold submit_feedback_proof
    rw [if_neg (by simp [hend])]
    simp only [hcm2, hpend]
  · intro verifier q hend hcm hpend hq
    obtain ⟨cm, hcm2⟩ := Option.ne_none_iff_exists'.mp hcm
    unfold submit_feedback_proof
    rw [if_neg (by simp [hend])]
    simp only [hcm2, hpend]
    rw [if_pos hq]
  · intro verifier hend hcm hpend hb
    obtain ⟨cm, hcm2⟩ := Option.ne_none_iff_exists'.mp hcm
    unfold submit_feedback_proof
    rw [if_neg (by simp [hend])]
    simp only [hcm2, hpend]
    rw [if_neg (by simp), if_pos hb]
  · intro verifier err hend hcm hpend hb hex
    obtain ⟨cm, hcm2⟩ := Option.ne_none_iff_exists'.mp hcm
    obtain ⟨guess, hgb⟩ := inv_pending_guess_by_id hi hpend
    unfold submit_feedback_proof
    rw [if_neg (by simp [hend])]
    simp only [hcm2, hpend]
    rw [if_neg (by simp), if_neg hb]
    simp only [hgb, hex]
    rw [extract_error_eq hex]
  · intro verifier cm guess pis hend hcm hpend hb hgb hex hne
    unfold submit_feedback_proof
    rw [if_neg (by simp [hend])]
    simp only [hcm, hpend]
    rw [if_neg (by simp), if_neg hb]
    simp only [hgb, hex]
    rw [if_pos hne]
  · intro cm guess hend hcm hpend hb hgb hex
    unfold submit_feedback_proof
    rw [if_neg (by simp [hend])]
    simp only [hcm, hpend]
    rw [if_neg (by simp), if_neg hb]
    simp only [hgb, hex]
    rw [if_neg (by simp)]
  · intro verify cm guess hend hcm hpend hb hgb hex hfail
    unfold submit_feedback_proof
    rw [if_neg (by simp [hend])]
    simp only [hcm, hpend]
    rw [if_neg (by simp), if_neg hb]
    simp only [hgb, hex]
    rw [if_neg (by simp)]
  · intro hpend
    obtain ⟨code, hcode⟩ := inv_pending_guess_by_id hi hpend
    simp [hcode]

/-- Witness for C1 on a concrete reachable session (the fourth conjunct
fires: guess id 7 differs from the pending id 0). -/
theorem submit_feedback_error_order_witness :
    submit_feedback_proof (fun _ => []) none 5 demo_g2 7 0 0 []
      = .error .InvalidGuessId :=
  (submit_feedback_error_order demo_reachable (fun _ => []) 7 0 0 []).2.2.2.1
    none 0 rfl (by simp [demo_g2, demo_g1, initial_game, demo_commitment]) rfl (by decide)

/-! ### submit_guess characterization -/

theorem validate_guess_digits_cases (c : List Nat) :
    validate_guess_digits c = .ok () ∨ validate_guess_digits c = .error .InvalidGuess := by
  unfold validate_guess_digits
  dsimp only
  split_ifs <;> simp

/-- C6: `submit_guess` on an existing session fails with GameAlreadyEnded,
CommitmentNotSet, AttemptsExhausted, GuessPendingFeedback, or InvalidGuess
(a digit outside [1,6] or a repeated digit), checked in that order and
leaving the session unchanged (no state is persisted on the error path);
otherwise it returns the current next_guess_id, increments it, records the
pending guess and appends the record, and on reachable sessions the accepted
guess ids are exactly 0, 1, 2, ... in submission order. -/
theorem submit_guess_spec {g : Game} {code : List Nat} (hcode : code.length = 4) :
    (g.ended = true → submit_guess g code = .error .GameAlreadyEnded) ∧
    (g.ended = false → g.commitment = none →
      submit_guess g code = .error .CommitmentNotSet) ∧
    (g.ended = false → g.commitment ≠ none → g.max_attempts ≤ g.attempts_used →
      submit_guess g code = .error .AttemptsExhausted) ∧
    (g.ended = false → g.commitment ≠ none → g.attempts_used < g.max_attempts →
      g.pending_guess_id ≠ none →
      submit_guess g code = .error .GuessPendingFeedback) ∧
    (g.ended = false → g.commitment ≠ none → g.attempts_used < g.max_attempts →
      g.pending_guess_id = none → ¬ ValidCode code →
      submit_guess g code = .error .InvalidGuess) ∧
    (g.ended = false → g.commitment ≠ none → g.attempts_used < g.max_attempts →
      g.pending_guess_id = none → ValidCode code →
      submit_guess g code = .ok ({ g with
        next_guess_id := g.next_guess_id + 1
        pending_guess_id := some g.next_guess_id
        guesses := g.guesses ++ [⟨g.next_guess_id, code⟩] }, g.next_guess_id)) ∧
    (∀ sid, Reachable sid g →
      g.next_guess_id = g.guesses.length ∧
      g.guesses.map (fun r => r.guess_id) = List.range g.guesses.length) := by
  refine ⟨?_, ?_, ?_, ?_, ?_, ?_, ?_⟩
  · intro hend
    unfold submit_guess
    rw [if_pos hend]
  · intro hend hcm
    unfold submit_guess
    rw [if_neg (by simp [hend]), if_pos (by simp [hcm])]
  · intro hend hcm hat
    unfold submit_guess
    rw [if_neg (by simp [hend]),
      if_neg (by simp [Option.isNone_iff_eq_none, hcm]), if_pos hat]
  · intro hend hcm hat hpend
    unfold submit_guess
    rw [if_neg (by simp [hend]),
      if_neg (by simp [Option.isNone_iff_eq_none, hcm]), if_neg (by omega),
      if_pos (Option.ne_none_iff_isSome.mp hpend)]
  · intro hend hcm hat hpend hbad
    unfold submit_guess
    rw [if_neg (by simp [hend]),
      if_neg (by simp [Option.isNone_iff_eq_none, hcm]), if_neg (by omega),
      if_neg (by simp [hpend])]
    rcases validate_guess_digits_cases code with hv | hv
    · exact absurd ((validate_guess_digits_ok_iff hcode).mp hv) hbad
    · simp only [hv]
  · intro hend hcm hat hpend hval
    unfold submit_guess
    rw [if_neg (by simp [hend]),
      if_neg (by simp [Option.isNone_iff_eq_none, hcm]), if_neg (by omega),
      if_neg (by simp [hpend])]
    simp only [(validate_guess_digits_ok_iff hcode).mpr hval]
  · intro sid hr
    exact ⟨(reachable_inv hr).next_len, (reachable_inv hr).ids_range⟩

/-- Witness for C6 on a concrete session (the success conjunct fires on the
demo session right after the commitment). -/
theorem submit_guess_spec_witness :
    (demo_g1.ended = true → submit_guess demo_g1 [1, 2, 3, 4] = .error .GameAlreadyEnded) ∧
    (demo_g1.ended = false → demo_g1.commitment = none →
      submit_guess demo_g1 [1, 2, 3, 4] = .error .CommitmentNotSet) ∧
    (demo_g1.ended = false → demo_g1.commitment ≠ none →
      demo_g1.max_attempts ≤ demo_g1.attempts_used →
      submit_guess demo_g1 [1, 2, 3, 4] = .error .AttemptsExhausted) ∧
    (demo_g1.ended = false → demo_g1.commitment ≠ none →
      demo_g1.attempts_used < demo_g1.max_attempts → demo_g1.pending_guess_id ≠ none →
      submit_guess demo_g1 [1, 2, 3, 4] = .error .GuessPendingFeedback) ∧
    (demo_g1.ended = false → demo_g1.commitment ≠ none →
      demo_g1.attempts_used < demo_g1.max_attempts → demo_g1.pending_guess_id = none →
      ¬ ValidCode [1, 2, 3, 4] →
      submit_guess demo_g1 [1, 2, 3, 4] = .error .InvalidGuess) ∧
    (demo_g1.ended = false → demo_g1.commitment ≠ none →
      demo_g1.attempts_used < demo_g1.max_attempts → demo_g1.pending_guess_id = none →
      ValidCode [1, 2, 3, 4] →
      submit_guess demo_g1 [1, 2, 3, 4] = .ok ({ demo_g1 with
        next_guess_id := demo_g1.next_guess_id + 1
        pending_guess_id := some demo_g1.next_guess_id
        guesses := demo_g1.guesses ++ [⟨demo_g1.next_guess_id, [1, 2, 3, 4]⟩] },
        demo_g1.next_guess_id)) ∧
    (∀ sid, Reachable sid demo_g1 →
      demo_g1.next_guess_id = demo_g1.guesses.length ∧
      demo_g1.guesses.map (fun r => r.guess_id) = List.range demo_g1.guesses.length) :=
  submit_guess_spec (by decide)

/-! ### Hub end-notification discipline over operation sequences -/

/-- A public mutating request with its inputs. -/
inductive OpA
  | commit (c : List Nat)
  | guess (code : List Nat)
  | feedback (gid exactN partialN : Nat) (blob : List Nat)

/-- Apply one request to the stored session: on an error nothing is
persisted and no Hub call is made; the second component lists the Hub
`end_game` invocations (their `player1_won` flag) the request produced. -/
def applyOp (keccak : List Nat → List Nat)
    (verifier : Option (List Nat → VerifierOutcome)) (sid : Nat)
    (g : Game) : OpA → Game × List Bool
  | .commit c =>
    match commit_code g c with
    | .ok g' => (g', [])
    | .error _ => (g, [])
  | .guess code =>
    match submit_guess g code with
    | .ok (g', _) => (g', [])
    | .error _ => (g, [])
  | .feedback gid e p blob =>
    match submit_feedback_proof keccak verifier sid g gid e p blob with
    | .ok (g', some w) => (g', [w])
    | .ok (g', none) => (g', [])
    | .error _ => (g, [])

/-- Run a sequence of requests, accumulating the Hub `end_game` calls. -/
def run (keccak : List Nat → List Nat)
    (verifier : Option (List Nat → VerifierOutcome)) (sid : Nat)
    (g : Game) : List OpA → Game × List Bool
  | [] => (g, [])
  | op :: ops =>
    let s1 := applyOp keccak verifier sid g op
    let s2 := run keccak verifier sid s1.1 ops
    (s2.1, s1.2 ++ s2.2)

/-- On an ended session every request fails and produces nothing. -/
theorem applyOp_ended {keccak : List Nat → List Nat}
    {verifier : Option (List Nat → VerifierOutcome)} {sid : Nat} {g : Game}
    (he : g.ended = true) (op : OpA) :
    applyOp keccak verifier sid g op = (g, []) := by
  cases op with
  | commit c =>
    cases hc : commit_code g c with
    | ok g' =>
      rw [(commit_code_ok_inv hc).1] at he
      cases he
    | error err => simp [applyOp, hc]
  | guess code =>
    cases hc : submit_guess g code with
    | ok pr =>
      obtain ⟨g', id⟩ := pr
      rw [(submit_guess_ok_inv hc).1] at he
      cases he
    | error err => simp [applyOp, hc]
  | feedback gid e p blob =>
    cases hc : submit_feedback_proof keccak verifier sid g gid e p blob with
    | ok pr =>
      rw [(submit_feedback_proof_ok_inv hc).1] at he
      cases he
    | error err => simp [applyOp, hc]

/-- The `apply_feedback` result ends the game exactly when it notifies. -/
theorem apply_feedback_hub_iff (keccak : List Nat → List Nat) (g : Game)
    (gid e p : Nat) (blob : List Nat) (he : g.ended = false) :
    (apply_feedback keccak g gid e p blob).2.isSome
      = (apply_feedback keccak g gid e p blob).1.ended := by
  unfold apply_feedback
  dsimp only
  split_ifs with h1 h2 <;> simp [he]

/-- From a live session one request notifies the Hub exactly when it ends
the game, and then it is a feedback request. -/
theorem applyOp_hub_spec {keccak : List Nat → List Nat}
    {verifier : Option (List Nat → VerifierOutcome)} {sid : Nat} {g : Game}
    (he : g.ended = false) (op : OpA) :
    (applyOp keccak verifier sid g op).2.length
      = (if (applyOp keccak verifier sid g op).1.ended = true then 1 else 0) ∧
    ((applyOp keccak verifier sid g op).2 ≠ [] →
      ∃ gid e p blob, op = OpA.feedback gid e p blob) := by
  cases op with
  | commit c =>
    cases hc : commit_code g c with
    | ok g' =>
      obtain ⟨-, -, rfl⟩ := commit_code_ok_inv hc
      simp [applyOp, hc, he]
    | error err => simp [applyOp, hc, he]
  | guess code =>
    cases hc : submit_guess g code with
    | ok pr =>
      obtain ⟨g1, id1⟩ := pr
      obtain ⟨-, -, -, -, -, -, hg⟩ := submit_guess_ok_inv hc
      simp only [applyOp, hc]
      rw [hg]
      simp [he]
    | error err => simp [applyOp, hc, he]
  | feedback gid e p blob =>
    cases hc : submit_feedback_proof keccak verifier sid g gid e p blob with
    | ok pr =>
      obtain ⟨g1, hub⟩ := pr
      obtain ⟨-, -, -, -, -, -, hpr⟩ := submit_feedback_proof_ok_inv hc
      have hiff := apply_feedback_hub_iff keccak g gid e p blob he
      rw [← hpr] at hiff
      refine ⟨?_, fun _ => ⟨gid, e, p, blob, rfl⟩⟩
      cases hub with
      | some w =>
        have hend : g1.ended = true := by simpa using hiff.symm
        simp [applyOp, hc, hend]
      | none =>
        have hend : g1.ended = false := by simpa using hiff.symm
        simp [applyOp, hc, hend]
    | error err => simp [applyOp, hc, he]

/-- Running any request list from an ended session changes nothing. -/
theorem run_ended {keccak : List Nat → List Nat}
    {verifier : Option (List Nat → VerifierOutcome)} {sid : Nat} {g : Game}
    (he : g.ended = true) (ops : List OpA) :
    run keccak verifier sid g ops = (g, []) := by
  induction ops with
  | nil => rfl
  | cons op ops ih =>
    simp [run, applyOp_ended he, ih]

/-- From a live session, the number of Hub end calls over a request list is
1 when the final state is ended and 0 otherwise. -/
theorem run_hub_count {keccak : List Nat → List Nat}
    {verifier : Option (List Nat → VerifierOutcome)} {sid : Nat} (g : Game)
    (he : g.ended = false) (ops : List OpA) :
    (run keccak verifier sid g ops).2.length
      = (if (run keccak verifier sid g ops).1.ended = true then 1 else 0) := by
  induction ops generalizing g with
  | nil => simp [run, he]
  | cons op ops ih =>
    have hspec := @applyOp_hub_spec keccak verifier sid g he op
    by_cases hend1 : (applyOp keccak verifier sid g op).1.ended = true
    · have hrun := @run_ended keccak verifier sid _ hend1 ops
      simp only [run, hrun, List.append_nil, hspec.1, hend1, if_pos hend1]
    · have hend1f : (applyOp keccak verifier sid g op).1.ended = false := by
        simpa using hend1
      have hlen : (applyOp keccak verifier sid g op).2.length = 0 := by
        rw [hspec.1, if_neg hend1]
      simp only [run, List.length_append, hlen, Nat.zero_add]
      exact ih _ hend1f

/-- C8: over every request sequence on one session, the Hub `end_game`
notification fires exactly once when the final state is ended and never
otherwise; no request on an already-ended session triggers anything (or
changes state), failed requests trigger nothing, and a notification can
come only from a feedback request (the transition into the ended state). -/
theorem hub_end_exactly_once (keccak : List Nat → List Nat)
    (verifier : Option (List Nat → VerifierOutcome)) (sid p1 p2 : Nat) (a b : Int)
    (ops : List OpA) :
    (run keccak verifier sid (initial_game p1 p2 a b) ops).2.length
      = (if (run keccak verifier sid (initial_game p1 p2 a b) ops).1.ended = true
         then 1 else 0) ∧
    (∀ g : Game, g.ended = true → ∀ op, applyOp keccak verifier sid g op = (g, [])) ∧
    (∀ g : Game, g.ended = false → ∀ op,
      (applyOp keccak verifier sid g op).2 ≠ [] →
      (∃ gid e p blob, op = OpA.feedback gid e p blob) ∧
      (applyOp keccak verifier sid g op).1.ended = true) := by
  refine ⟨run_hub_count _ rfl ops, fun g hg op => applyOp_ended hg op, ?_⟩
  intro g hg op hne
  have hspec := @applyOp_hub_spec keccak verifier sid g hg op
  refine ⟨hspec.2 hne, ?_⟩
  by_contra hend
  have hend2 : (applyOp keccak verifier sid g op).1.ended = false := by
    simpa using hend
  have := hspec.1
  rw [hend2] at this
  simp at this
  exact hne this

/-! ### start_game's equal-players check -/

/-- C9 counterexample: `start_game` with equal players aborts with a panic
(lib.rs line 127) and does not return any error of the taxonomy, refuting
the claim that this failure is reported as a typed error. -/
theorem start_game_equal_players_panics :
    start_game 5 7 7 100 100 = .panicked
        "Cannot play against yourself: Player 1 and Player 2 must be different addresses" ∧
    ¬ ∃ er : Error, start_game 5 7 7 100 100 = .err er := by
  constructor
  · rfl
  · rintro ⟨er, her⟩
    rw [show start_game 5 7 7 100 100 = .panicked
      "Cannot play against yourself: Player 1 and Player 2 must be different addresses"
      from rfl] at her
    cases her

/-- C9 amended: `start_game` aborts with a panic exactly when the two
players coincide — never returning a taxonomy error for that case — and
otherwise returns the fresh session; the other game operations
(`commit_code`, `submit_guess`, `submit_feedback_proof`) report game-logic
failures as returned `Error` values. -/
theorem start_game_panic_spec (sid p1 p2 : Nat) (a b : Int) :
    (p1 = p2 → start_game sid p1 p2 a b = .panicked
      "Cannot play against yourself: Player 1 and Player 2 must be different addresses") ∧
    (p1 ≠ p2 → start_game sid p1 p2 a b = .ok (initial_game p1 p2 a b)) ∧
    (∀ er : Error, start_game sid p1 p2 a b ≠ .err er) := by
  refine ⟨?_, ?_, ?_⟩
  · intro h
    unfold start_game
    rw [if_pos h]
  · intro h
    unfold start_game
    rw [if_neg h]
  · intro er her
    unfold start_game at her
    by_cases h : p1 = p2
    · rw [if_pos h] at her; cases her
    · rw [if_neg h] at her; cases her

/-- Witness for the amended C9 at concrete inputs. -/
theorem start_game_panic_spec_witness :
    start_game 5 7 8 100 100 = .ok (initial_game 7 8 100 100) :=
  (start_game_panic_spec 5 7 8 100 100).2.1 (by decide)

end MyGame
